import Mathlib

/-!
Verification development for the personal-finance-dashboard repository.

The repository contains four near-duplicate React components; the domain
logic (validation, CRUD on the expense collection, the filter/search/sort
view pipeline, monthly aggregation, import/export) is embedded below as
pure Lean functions, one per source variant where the variants differ:

* `addExpenseA`, `saveEditA`, `deleteExpense`, `viewA`   — `src/src/App_backup2.js`, first component;
* `computeViewB`, `monthMapB`, `barDataB`               — `src/src/App_backup2.js`, second component;
* `addExpenseC`, `saveEditC`, `viewC`                   — `src/unnamed/part_000`, first component;
* `addExpenseD`, `computeViewD`, `monthlyDataD`,
  `exportData`, `importData`                            — `src/unnamed/part_000`, second component.

JavaScript machine-level details are modelled as follows: strings compare
by code unit (`jsLt`); `Number(s)` is modelled on the integer numerals the
forms produce (`jsNumber`, with `none` playing NaN); `Array.prototype.sort`
is modelled as the ECMAScript-mandated stable sort (`jsSort`); plain-object
string-keyed maps keep insertion order (`bumpKey`, `upsertCell`).
-/

/-- JS `<` on strings, char-list level: code-unit lexicographic comparison. -/
def jsLtChars : List Char → List Char → Bool
  | [], [] => false
  | [], _ :: _ => true
  | _ :: _, [] => false
  | a :: as, b :: bs =>
    if a.toNat < b.toNat then true
    else if b.toNat < a.toNat then false
    else jsLtChars as bs

/-- JS `a < b` on strings (code-unit lexicographic order, as used by the
source to compare ISO `YYYY-MM-DD` date strings). -/
def jsLt (a b : String) : Bool := jsLtChars a.data b.data

/-- JS `a > b` on strings. -/
def jsGt (a b : String) : Bool := jsLt b a

/-- JS `a <= b` on strings. -/
def jsLe (a b : String) : Bool := ! jsLt b a

/-- A numeral's digits as a natural number. -/
def digitsToNat (ds : List Char) : Nat :=
  ds.foldl (fun n c => n * 10 + (c.toNat - 48)) 0

/-- Model of JS `Number(s)` on the strings this app's forms produce:
integer numerals with an optional leading minus sign; `""` yields `0`
(as in JS); anything else is `NaN`, modelled as `none`.  (Fractional
numerals, leading `+`, and surrounding whitespace are outside the model;
the source never relies on them.) -/
def jsNumber (s : String) : Option Int :=
  if s = "" then some 0
  else
    match s.data with
    | '-' :: ds => if ds ≠ [] && ds.all (·.isDigit) then some (-(digitsToNat ds : Int)) else none
    | ds => if ds.all (·.isDigit) then some ((digitsToNat ds : Int)) else none

/-- JS `String.prototype.toLowerCase` (ASCII-faithful). -/
def lowerStr (s : String) : String := ⟨s.data.map Char.toLower⟩

/-- JS `hay.includes(needle)`: substring test. -/
def strIncludesChars (needle : List Char) : List Char → Bool
  | [] => needle.isEmpty
  | c :: cs => needle.isPrefixOf (c :: cs) || strIncludesChars needle cs

def strIncludes (hay needle : String) : Bool := strIncludesChars needle.data hay.data

/-- Model of ECMAScript `Array.prototype.sort(comparator)`: the spec
mandates a stable sort, realised here as straight insertion from the
right — an element `a` earlier in the array ends up before `b` exactly
when `comparator a b <= 0` would keep it there.  For consistent
comparators this is the unique stable result. -/
def jsInsert (c : α → α → Int) (a : α) : List α → List α
  | [] => [a]
  | y :: ys => if c a y ≤ 0 then a :: y :: ys else y :: jsInsert c a ys

def jsSort (c : α → α → Int) : List α → List α
  | [] => []
  | a :: l => jsInsert c a (jsSort c l)

/-- A transaction record as created by the numeric-amount variants
(`App_backup2.js` both components and the import/export component of
`part_000`).  `type` is only meaningful for the multi-type component
(others leave its default `"expense"`); `notes` only for the
import/export component (others leave `""`).  The `createdAt` timestamp
the import/export component stores is never read anywhere in the source
and is omitted. -/
structure Expense where
  id : Nat
  title : String
  amount : Int
  date : String
  category : String
  type : String := "expense"
  notes : String := ""
  deriving Repr, DecidableEq

/-- A record as created by the sidebar component of `part_000`, whose
`addExpense` stores the raw form string in `amount` (no `Number`
conversion happens at entry time there). -/
structure RecC where
  id : Nat
  title : String
  amount : String
  date : String
  category : String
  deriving Repr, DecidableEq

/-- The add-form state consumed by `addExpense` in the components that
have a custom-category input (`title`, `amount`, `date`, `category`,
`customCategory` React states; `amount` is the raw string value of the
number input). -/
structure Draft where
  title : String
  amount : String
  date : String
  category : String
  customCategory : String
  deriving Repr, DecidableEq

/-- The add-form state of the import/export component (category chosen
from buttons, free-text `notes`, no custom-category field). -/
structure DraftD where
  title : String
  amount : String
  date : String
  category : String
  notes : String
  deriving Repr, DecidableEq

/-- The edit-form state (`editForm` React state: all four fields held as
strings). -/
structure EditForm where
  title : String
  amount : String
  date : String
  category : String
  deriving Repr, DecidableEq

/-- Which exit an `addExpense` call took. -/
inductive AddOutcome where
  | added
  | missingFields
  | badAmount
  | futureDate
  | unresolvedCategory
  deriving Repr, DecidableEq

/-- Which exit a `saveEdit` call took. -/
inductive EditOutcome where
  | saved
  | badAmount
  | futureDate
  deriving Repr, DecidableEq

/-- In the first `App_backup2.js` component, only the amount and date
rejections raise an `alert`; the empty-field and unresolved-category
rejections are bare `return`s (nothing is reported). -/
def reportedA : AddOutcome → Bool
  | .badAmount => true
  | .futureDate => true
  | _ => false

/-- In the import/export component every rejection calls
`showNotification(..., "error")`. -/
def reportedD : AddOutcome → Bool
  | .added => false
  | _ => true

/-- `addExpense` of the first `App_backup2.js` component (lines 50-87):
checks field truthiness, `Number` validity and positivity, rejects
future dates by string comparison with today's ISO date, resolves
`"Other"` through the custom-category field, then appends a record with
`id = Date.now()` (passed in as `now`). -/
def addExpenseA (d : Draft) (today : String) (now : Nat) (es : List Expense) :
    List Expense × AddOutcome :=
  if d.title = "" || d.amount = "" || d.date = "" || d.category = "" then
    (es, .missingFields)
  else
    match jsNumber d.amount with
    | none => (es, .badAmount)
    | some amountNum =>
      if amountNum ≤ 0 then (es, .badAmount)
      else if jsGt d.date today then (es, .futureDate)
      else
        let finalCategory := if d.category = "Other" then d.customCategory else d.category
        if finalCategory = "" then (es, .unresolvedCategory)
        else
          (es ++ [{ id := now, title := d.title, amount := amountNum,
                    date := d.date, category := finalCategory }], .added)

/-- `addExpense` of the sidebar component of `part_000` (lines 62-85):
only field truthiness and category resolution are checked — there is no
amount or date validation — and the raw `amount` string is stored. -/
def addExpenseC (d : Draft) (now : Nat) (es : List RecC) : List RecC × AddOutcome :=
  if d.title = "" || d.amount = "" || d.date = "" || d.category = "" then
    (es, .missingFields)
  else
    let finalCategory := if d.category = "Other" then d.customCategory else d.category
    if finalCategory = "" then (es, .unresolvedCategory)
    else
      (es ++ [{ id := now, title := d.title, amount := d.amount,
                date := d.date, category := finalCategory }], .added)

/-- `addExpense` of the import/export component of `part_000` (lines
598-635): same amount/date validation as `addExpenseA`, but the new
record is PREPENDED (`setExpenses(prev => [newExpense, ...prev])`) and
all rejections are reported via `showNotification`. -/
def addExpenseD (d : DraftD) (today : String) (now : Nat) (es : List Expense) :
    List Expense × AddOutcome :=
  if d.title = "" || d.amount = "" || d.date = "" || d.category = "" then
    (es, .missingFields)
  else
    match jsNumber d.amount with
    | none => (es, .badAmount)
    | some amountNum =>
      if amountNum ≤ 0 then (es, .badAmount)
      else if jsGt d.date today then (es, .futureDate)
      else
        ({ id := now, title := d.title, amount := amountNum, date := d.date,
           category := d.category, notes := d.notes } :: es, .added)

/-- `saveEdit` of the first `App_backup2.js` component (lines 108-129):
re-validates amount and date, then maps over the collection replacing
the record whose `id` matches (spreading the edit form over it and
overriding `amount` with the converted number). -/
def saveEditA (i : Nat) (f : EditForm) (today : String) (es : List Expense) :
    List Expense × EditOutcome :=
  match jsNumber f.amount with
  | none => (es, .badAmount)
  | some amountNum =>
    if amountNum ≤ 0 then (es, .badAmount)
    else if jsGt f.date today then (es, .futureDate)
    else
      (es.map (fun e =>
        if e.id = i then
          { e with title := f.title, amount := amountNum, date := f.date,
                   category := f.category }
        else e), .saved)

/-- `saveEdit` of the sidebar component of `part_000` (lines 106-113):
NO validation at all — the edit form is spread over the matching record
unconditionally. -/
def saveEditC (i : Nat) (f : EditForm) (es : List RecC) : List RecC :=
  es.map (fun e =>
    if e.id = i then
      { id := e.id, title := f.title, amount := f.amount, date := f.date,
        category := f.category }
    else e)

/-- `deleteExpense` (first `App_backup2.js` component, lines 90-91):
keeps every record whose `id` differs from the argument. -/
def deleteExpense (i : Nat) (es : List Expense) : List Expense :=
  es.filter (fun e => e.id != i)

/-- `clearAll` empties the collection (after a user confirmation that is
UI, not domain, state). -/
def clearAll (_es : List Expense) : List Expense := []

/-- JS `String.prototype.trim` (ASCII whitespace; the searches the app
handles never carry the exotic Unicode spaces where JS differs). -/
def jsTrim (s : String) : String :=
  ⟨((s.data.dropWhile Char.isWhitespace).reverse.dropWhile Char.isWhitespace).reverse⟩

/-- JS `s.split(sep)` for a single-character separator, char-list level. -/
def splitChars (sep : Char) : List Char → List (List Char)
  | [] => [[]]
  | c :: cs =>
    let r := splitChars sep cs
    if c = sep then [] :: r
    else
      match r with
      | [] => [[c]]
      | h :: t => (c :: h) :: t

/-- JS `s.split("-")`, as used by the month filters on `YYYY-MM-DD` dates. -/
def jsSplitDash (s : String) : List String := (splitChars '-' s.data).map String.mk

/-- JS `s.slice(0, n)` (and `String.prototype.padStart` below). -/
def jsTake (n : Nat) (s : String) : String := ⟨s.data.take n⟩

def padStart2 (s : String) : String :=
  if s.data.length < 2 then ⟨List.replicate (2 - s.data.length) '0' ++ s.data⟩ else s

/-- JS `a.localeCompare(b)` under the default locale on the ASCII month
keys and titles this app produces: sign of code-unit comparison. -/
def localeCmp (a b : String) : Int := if jsLt a b then -1 else if jsLt b a then 1 else 0

/-- The filter/sort parameter set of the single-type components
(`selectedMonth`, `search`, `sortBy`, `sortDir` React states). -/
structure Params where
  month : String
  search : String
  sortBy : String
  sortDir : String
  deriving Repr, DecidableEq

/-- The parameter set of the multi-type component, which adds the
`filterType` select. -/
structure ParamsB where
  month : String
  ftype : String
  search : String
  sortBy : String
  sortDir : String
  deriving Repr, DecidableEq

/-- The sort comparator shared (textually duplicated) by both
`App_backup2.js` components (lines 158-170 and 702-708): three-way
comparison of `Number(amount)` or of the date string, with direction
applied to the strict cases and `0` on ties. -/
def cmpAB (sortBy sortDir : String) (a b : Expense) : Int :=
  if sortBy = "amount" then
    if a.amount < b.amount then (if sortDir = "asc" then -1 else 1)
    else if b.amount < a.amount then (if sortDir = "asc" then 1 else -1)
    else 0
  else
    if jsLt a.date b.date then (if sortDir = "asc" then -1 else 1)
    else if jsLt b.date a.date then (if sortDir = "asc" then 1 else -1)
    else 0

/-- The view pipeline of the first `App_backup2.js` component (lines
143-171): month filter (on `date.split("-")[1]`), then case-insensitive
title search, then sort. -/
def viewA (es : List Expense) (p : Params) : List Expense :=
  let v := if p.month ≠ "" then
      es.filter (fun e => e.date ≠ "" && ((jsSplitDash e.date)[1]? == some p.month))
    else es
  let v := if jsTrim p.search ≠ "" then
      v.filter (fun e => strIncludes (lowerStr e.title) (lowerStr p.search))
    else v
  if p.sortBy ≠ "" then jsSort (cmpAB p.sortBy p.sortDir) v else v

/-- The sort comparator of the sidebar component of `part_000` (lines
142-152): `sortDir === "asc" ? (x > y ? 1 : -1) : x < y ? 1 : -1` — note
it never returns `0`.  `Number` is applied to the stored amount strings;
comparisons against NaN are false, as in JS. -/
def optGt : Option Int → Option Int → Bool
  | some a, some b => decide (b < a)
  | _, _ => false

def optLt : Option Int → Option Int → Bool
  | some a, some b => decide (a < b)
  | _, _ => false

def cmpC (sortBy sortDir : String) (a b : RecC) : Int :=
  if sortBy = "amount" then
    if sortDir = "asc" then (if optGt (jsNumber a.amount) (jsNumber b.amount) then 1 else -1)
    else (if optLt (jsNumber a.amount) (jsNumber b.amount) then 1 else -1)
  else
    if sortDir = "asc" then (if jsGt a.date b.date then 1 else -1)
    else (if jsLt a.date b.date then 1 else -1)

/-- The view pipeline of the sidebar component of `part_000` (lines
127-153): same stages as `viewA`, with the never-`0` comparator. -/
def viewC (es : List RecC) (p : Params) : List RecC :=
  let v := if p.month ≠ "" then
      es.filter (fun e => e.date ≠ "" && ((jsSplitDash e.date)[1]? == some p.month))
    else es
  let v := if jsTrim p.search ≠ "" then
      v.filter (fun e => strIncludes (lowerStr e.title) (lowerStr p.search))
    else v
  if p.sortBy ≠ "" then jsSort (cmpC p.sortBy p.sortDir) v else v

/-- Month-filter stage of the multi-type component (lines 684-686). -/
def monthStageB (m : String) (es : List Expense) : List Expense :=
  if m ≠ "" then
    es.filter (fun e => e.date ≠ "" && ((jsSplitDash e.date)[1]? == some m))
  else es

/-- Type-filter stage of the multi-type component (lines 688-694): only
the values `"expense"` (which also admits records with a falsy type) and
`"income"` actually filter. -/
def typeStageB (t : String) (es : List Expense) : List Expense :=
  if t ≠ "all" then
    if t = "expense" then es.filter (fun e => e.type == "expense" || e.type == "")
    else if t = "income" then es.filter (fun e => e.type == "income")
    else es
  else es

/-- Search stage of the multi-type component (lines 696-699): title only. -/
def searchStageB (s : String) (es : List Expense) : List Expense :=
  if jsTrim s ≠ "" then
    es.filter (fun e => strIncludes (lowerStr e.title) (lowerStr s))
  else es

/-- Sort stage of the multi-type component (lines 701-709). -/
def sortStageB (sortBy sortDir : String) (es : List Expense) : List Expense :=
  if sortBy ≠ "" then jsSort (cmpAB sortBy sortDir) es else es

/-- The full view pipeline of the multi-type `App_backup2.js` component
(lines 684-709), written as the source's sequential reassignments. -/
def computeViewB (es : List Expense) (p : ParamsB) : List Expense :=
  let v := if p.month ≠ "" then
      es.filter (fun e => e.date ≠ "" && ((jsSplitDash e.date)[1]? == some p.month))
    else es
  let v := if p.ftype ≠ "all" then
      if p.ftype = "expense" then v.filter (fun e => e.type == "expense" || e.type == "")
      else if p.ftype = "income" then v.filter (fun e => e.type == "income")
      else v
    else v
  let v := if jsTrim p.search ≠ "" then
      v.filter (fun e => strIncludes (lowerStr e.title) (lowerStr p.search))
    else v
  if p.sortBy ≠ "" then jsSort (cmpAB p.sortBy p.sortDir) v else v

/-- Fields of a strict-ISO `YYYY-MM-DD` date; `none` models JS
`Invalid Date`.  (`new Date` in the source only ever sees the values of
`<input type="date">` fields, which are strict ISO; day validity is
approximated by `1..31`.) -/
def jsDateFields (s : String) : Option (Nat × Nat × Nat) :=
  match jsSplitDash s with
  | [y, m, d] =>
    if y ≠ "" && y.data.all (·.isDigit) &&
       m.data.length == 2 && m.data.all (·.isDigit) &&
       d.data.length == 2 && d.data.all (·.isDigit) &&
       decide (1 ≤ digitsToNat m.data) && decide (digitsToNat m.data ≤ 12) &&
       decide (1 ≤ digitsToNat d.data) && decide (digitsToNat d.data ≤ 31) then
      some (digitsToNat y.data, digitsToNat m.data, digitsToNat d.data)
    else none
  | _ => none

/-- `new Date(s).getMonth() + 1`, 1-based; `none` for Invalid Date. -/
def jsDateMonth (s : String) : Option Nat := (jsDateFields s).map (fun f => f.2.1)

/-- `(new Date(s).getMonth() + 1).toString().padStart(2, '0')` — the
month key the import/export component filters on; Invalid Date gives
`"NaN"` (`"NaN".padStart(2,'0')` is `"NaN"`). -/
def monthKeyD (s : String) : String :=
  match jsDateMonth s with
  | some m => padStart2 (toString m)
  | none => "NaN"

/-- `new Date(s)` as a number, up to order isomorphism with the epoch
value (only the sign of differences is ever used); Invalid Date is NaN,
modelled as `none`. -/
def jsDateValue (s : String) : Option Int :=
  (jsDateFields s).map (fun f => ((f.1 : Int)) * 10000 + (f.2.1 : Int) * 100 + (f.2.2 : Int))

/-- The sort comparator of the import/export component (lines 776-786):
signed difference times direction multiplier; `amount` by subtraction,
`title` via `localeCompare`, anything else by date difference (dates
defaulting, per ECMAScript `SortCompare`, to `+0` when the difference is
NaN). -/
def cmpD (sortBy sortDir : String) (a b : Expense) : Int :=
  let multiplier : Int := if sortDir = "asc" then 1 else -1
  if sortBy = "amount" then (a.amount - b.amount) * multiplier
  else if sortBy = "title" then (localeCmp a.title b.title) * multiplier
  else
    match jsDateValue a.date, jsDateValue b.date with
    | some x, some y => (x - y) * multiplier
    | _, _ => 0

/-- Month-filter stage of the import/export component (lines 759-764):
unlike the other components, it goes through `new Date` parsing. -/
def monthStageD (m : String) (es : List Expense) : List Expense :=
  if m ≠ "" then es.filter (fun e => monthKeyD e.date == m) else es

/-- Search stage of the import/export component (lines 766-773): title,
category, and (when truthy) notes. -/
def searchStageD (s : String) (es : List Expense) : List Expense :=
  if jsTrim s ≠ "" then
    es.filter (fun e =>
      strIncludes (lowerStr e.title) (lowerStr s) ||
      strIncludes (lowerStr e.category) (lowerStr s) ||
      (e.notes ≠ "" && strIncludes (lowerStr e.notes) (lowerStr s)))
  else es

/-- Sort stage of the import/export component (lines 776-786): applied
unconditionally (`sortBy` defaults to `"date"` there). -/
def sortStageD (sortBy sortDir : String) (es : List Expense) : List Expense :=
  jsSort (cmpD sortBy sortDir) es

/-- The full `filteredExpenses` pipeline of the import/export component
(lines 756-786): month filter, search, sort — this component has no type
filter. -/
def computeViewD (es : List Expense) (p : Params) : List Expense :=
  let v := if p.month ≠ "" then es.filter (fun e => monthKeyD e.date == p.month) else es
  let v := if jsTrim p.search ≠ "" then
      v.filter (fun e =>
        strIncludes (lowerStr e.title) (lowerStr p.search) ||
        strIncludes (lowerStr e.category) (lowerStr p.search) ||
        (e.notes ≠ "" && strIncludes (lowerStr e.notes) (lowerStr p.search)))
    else v
  jsSort (cmpD p.sortBy p.sortDir) v

/-- One bucket of the multi-type component's `monthMap` (lines 758-772):
per-month totals split by transaction type. -/
structure MonthCell where
  month : String
  expense : Int
  income : Int
  investment : Int
  deriving Repr, DecidableEq

/-- Adding one record's amount into a bucket, dispatching on `type`
exactly as the source's `if/else if/else` does (anything that is neither
`"income"` nor `"investment"` counts as expense). -/
def bumpCell (e : Expense) (c : MonthCell) : MonthCell :=
  if e.type = "income" then { c with income := c.income + e.amount }
  else if e.type = "investment" then { c with investment := c.investment + e.amount }
  else { c with expense := c.expense + e.amount }

/-- JS plain objects keep string (non-index) keys in insertion order;
`monthMap[m]` assignment either updates the existing entry in place or
appends a new one. -/
def upsertCell (m : String) (e : Expense) : List MonthCell → List MonthCell
  | [] => [bumpCell e { month := m, expense := 0, income := 0, investment := 0 }]
  | c :: cs => if c.month = m then bumpCell e c :: cs else c :: upsertCell m e cs

/-- `monthMap` of the multi-type `App_backup2.js` component (lines
758-772): buckets the view by `e.date?.slice(0, 7)`, skipping records
whose key is falsy (missing or empty date). -/
def monthMapB (view : List Expense) : List MonthCell :=
  view.foldl (fun acc e =>
    let m := jsTake 7 e.date
    if m = "" then acc else upsertCell m e acc) []

/-- One item of `barData` (lines 774-780): a bucket augmented with the
derived `spending` and `total` fields. -/
structure BarItem where
  month : String
  expense : Int
  income : Int
  investment : Int
  spending : Int
  total : Int
  deriving Repr, DecidableEq

/-- `barData` of the multi-type component (lines 774-780):
`Object.values(monthMap)` sorted ascending by month key
(`localeCompare`), then augmented. -/
def barDataB (view : List Expense) : List BarItem :=
  (jsSort (fun a b => localeCmp a.month b.month) (monthMapB view)).map
    (fun c =>
      { month := c.month, expense := c.expense, income := c.income,
        investment := c.investment, spending := c.expense + c.investment,
        total := c.income + c.expense + c.investment })

/-- Insertion-ordered string-keyed sum map (`acc[k] = (acc[k] || 0) + v`). -/
def bumpKey (k : String) (v : Int) : List (String × Int) → List (String × Int)
  | [] => [(k, v)]
  | (k', x) :: rest => if k' = k then (k', x + v) :: rest else (k', x) :: bumpKey k v rest

/-- `monthlyData` of the import/export component of `part_000` (lines
804-818): buckets by `e.date.slice(0, 7)` with NO guard — every record
of the view is bucketed, an empty date under the key `""`. -/
def monthlyDataD (filtered : List Expense) : List (String × Int) :=
  filtered.foldl (fun acc e => bumpKey (jsTake 7 e.date) e.amount acc) []

/-- The monthly `bar` series of the import/export component (lines
824-827): entries sorted ascending by month key. -/
def barDataD (filtered : List Expense) : List (String × Int) :=
  jsSort (fun a b => localeCmp a.1 b.1) (monthlyDataD filtered)

/-- First bucket with the given month key (JS object property lookup). -/
def findCell (k : String) : List MonthCell → Option MonthCell
  | [] => none
  | c :: cs => if c.month = k then some c else findCell k cs

def lookupKey (k : String) : List (String × Int) → Option Int
  | [] => none
  | (k', v) :: r => if k' = k then some v else lookupKey k r

/-- JSON values, as produced by `JSON.parse`/consumed by
`JSON.stringify`.  Numbers are restricted to the integers the model
carries. -/
inductive Json where
  | null : Json
  | bool : Bool → Json
  | num : Int → Json
  | str : String → Json
  | arr : List Json → Json
  | obj : List (String × Json) → Json
  deriving Repr

/-- JS truthiness of a parsed JSON value (`undefined`, for an absent
property, is handled at the lookup site). -/
def jsonTruthy : Json → Bool
  | .null => false
  | .bool b => b
  | .num n => n != 0
  | .str s => s != ""
  | .arr _ => true
  | .obj _ => true

/-- Property access `data.k`: first binding wins; `none` is `undefined`. -/
def getField (j : Json) (k : String) : Option Json :=
  match j with
  | .obj fs => go fs
  | _ => none
where
  go : List (String × Json) → Option Json
    | [] => none
    | (k', v) :: r => if k' = k then some v else go r

/-- `JSON.stringify` of one record, as the import/export component's
`exportData` serialises it.  (The component also stores a `createdAt`
ISO timestamp on creation; it is never read anywhere in the source and
is not carried by the model.) -/
def encodeExpense (e : Expense) : Json :=
  .obj [("id", .num e.id), ("title", .str e.title), ("amount", .num e.amount),
        ("date", .str e.date), ("category", .str e.category),
        ("type", .str e.type), ("notes", .str e.notes)]

/-- Reading a serialised record back into the typed model.  In JS the
parsed object simply IS the record; this decoder is the typed-embedding
counterpart and succeeds exactly on the images of `encodeExpense`. -/
def decodeExpense (j : Json) : Option Expense :=
  match getField j "id", getField j "title", getField j "amount",
        getField j "date", getField j "category",
        getField j "type", getField j "notes" with
  | some (.num i), some (.str t), some (.num a), some (.str d),
    some (.str c), some (.str ty), some (.str no) =>
    match i with
    | .ofNat n => some { id := n, title := t, amount := a, date := d,
                         category := c, type := ty, notes := no }
    | _ => none
  | _, _, _, _, _, _, _ => none

def decodeExpenseList : List Json → Option (List Expense)
  | [] => some []
  | x :: xs =>
    match decodeExpense x, decodeExpenseList xs with
    | some e, some es => some (e :: es)
    | _, _ => none

def decodeExpenses (j : Json) : Option (List Expense) :=
  match j with
  | .arr xs => decodeExpenseList xs
  | _ => none

/-- The persistent store of the import/export component: the expense
collection plus the `monthlyBudget` scalar. -/
structure StoreD where
  expenses : List Expense
  budget : Int
  deriving Repr, DecidableEq

/-- How an `importData` call ended. -/
inductive ImpResult where
  | parseError
  | silentNoop
  | imported
  | untypedData
  deriving Repr, DecidableEq

/-- Only the parse failure reports an error (`showNotification("Invalid
file format", "error")`); a missing or falsy `expenses` property is a
silent no-op. -/
def impReportsError : ImpResult → Bool
  | .parseError => true
  | _ => false

/-- `exportData` of the import/export component (lines 695-713): the
JSON document `{ expenses, monthlyBudget, exportedAt }`. -/
def exportData (st : StoreD) (exportedAt : String) : Json :=
  .obj [("expenses", .arr (st.expenses.map encodeExpense)),
        ("monthlyBudget", .num st.budget),
        ("exportedAt", .str exportedAt)]

/-- `importData` of the import/export component (lines 715-733).  The
input is the outcome of `JSON.parse` on the chosen file: `none` for a
parse failure (the `catch` branch), `some j` for the parsed document.
On a truthy `expenses` property the collection is replaced wholesale and
a truthy `monthlyBudget` also replaces the budget; a falsy or absent
`expenses` property does nothing and reports nothing.  The source stores
whatever untyped value `data.expenses` holds; the `untypedData` outcome
marks the inputs whose stored value is outside this typed model (no
claim depends on them). -/
def importData (parsed : Option Json) (st : StoreD) : StoreD × ImpResult :=
  match parsed with
  | none => (st, .parseError)
  | some j =>
    match getField j "expenses" with
    | none => (st, .silentNoop)
    | some v =>
      if jsonTruthy v then
        match decodeExpenses v with
        | some rs =>
          ({ expenses := rs,
             budget :=
               match getField j "monthlyBudget" with
               | some (.num b) => if b != 0 then b else st.budget
               | _ => st.budget }, .imported)
        | none => (st, .untypedData)
      else (st, .silentNoop)

/-- The per-record contribution each transaction makes to the expense
component of its month bucket, per `monthMap`'s type dispatch. -/
def expPart (e : Expense) : Int :=
  if e.type = "income" then 0 else if e.type = "investment" then 0 else e.amount

def incPart (e : Expense) : Int :=
  if e.type = "income" then e.amount else 0

def invPart (e : Expense) : Int :=
  if e.type = "income" then 0 else if e.type = "investment" then e.amount else 0

/-- Folding a run of records into one bucket. -/
def foldBucket (c : MonthCell) (ms : List Expense) : MonthCell :=
  ms.foldl (fun c e => bumpCell e c) c

/-- The spec's data-model invariant, relative to the current date:
positive amounts, no future dates, non-empty title and category, unique
ids. -/
def InvariantA (today : String) (es : List Expense) : Prop :=
  (es.map (fun e => e.id)).Nodup ∧
  ∀ r ∈ es, 0 < r.amount ∧ jsLe r.date today = true ∧ r.title ≠ "" ∧ r.category ≠ ""

/-- Collection states reachable in the first `App_backup2.js` component
by `addExpense`, `deleteExpense` and `clearAll` from the empty initial
state.  Each step happens at a current date no earlier than the previous
one, and each `Date.now()` value handed to `addExpense` is assumed not to
collide with an id already present (the source itself offers no such
guarantee — see the C2 analysis). -/
inductive ReachA : String → List Expense → Prop where
  | init (today : String) : ReachA today []
  | stepAdd {today es} (today' : String) (d : Draft) (now : Nat) :
      ReachA today es → jsLe today today' = true →
      now ∉ es.map (fun e => e.id) →
      ReachA today' (addExpenseA d today' now es).1
  | stepDelete {today es} (today' : String) (i : Nat) :
      ReachA today es → jsLe today today' = true →
      ReachA today' (deleteExpense i es)
  | stepClear {today es} (today' : String) :
      ReachA today es → jsLe today today' = true →
      ReachA today' (clearAll es)

/-! ### General lemmas about the JS primitives -/

theorem jsLtChars_trans : ∀ a b c : List Char,
    jsLtChars a b = true → jsLtChars b c = true → jsLtChars a c = true := by
  intro a
  induction a with
  | nil =>
    intro b c hab hbc
    cases b with
    | nil => simp [jsLtChars] at hab
    | cons y ys =>
      cases c with
      | nil => simp [jsLtChars] at hbc
      | cons z zs => simp [jsLtChars]
  | cons x xs ih =>
    intro b c hab hbc
    cases b with
    | nil => simp [jsLtChars] at hab
    | cons y ys =>
      cases c with
      | nil => simp [jsLtChars] at hbc
      | cons z zs =>
        simp only [jsLtChars] at hab hbc ⊢
        split at hab
        case isTrue hxy =>
          split at hbc
          case isTrue hyz => rw [if_pos (Nat.lt_trans hxy hyz)]
          case isFalse hyz =>
            split at hbc
            case isTrue hzy => exact absurd hbc (by simp)
            case isFalse hzy =>
              have hyz' : y.toNat = z.toNat := by omega
              rw [if_pos (hyz' ▸ hxy)]
        case isFalse hxy =>
          split at hab
          case isTrue hyx => exact absurd hab (by simp)
          case isFalse hyx =>
            have hxy' : x.toNat = y.toNat := by omega
            split at hbc
            case isTrue hyz => rw [if_pos (hxy' ▸ hyz)]
            case isFalse hyz =>
              split at hbc
              case isTrue hzy => exact absurd hbc (by simp)
              case isFalse hzy =>
                have hxz : ¬ x.toNat < z.toNat := by omega
                have hzx : ¬ z.toNat < x.toNat := by omega
                rw [if_neg hxz, if_neg hzx]
                exact ih ys zs hab hbc

theorem jsLtChars_conn : ∀ a b : List Char,
    jsLtChars a b = false → jsLtChars b a = false → a = b := by
  intro a
  induction a with
  | nil =>
    intro b hab _
    cases b with
    | nil => rfl
    | cons y ys => simp [jsLtChars] at hab
  | cons x xs ih =>
    intro b hab hba
    cases b with
    | nil => simp [jsLtChars] at hba
    | cons y ys =>
      simp only [jsLtChars] at hab hba
      split at hab
      case isTrue hxy => exact absurd hab (by simp)
      case isFalse hxy =>
        split at hba
        case isTrue hyx => exact absurd hba (by simp)
        case isFalse hyx =>
          have hx : x.toNat = y.toNat := by omega
          have hxc : x = y := Char.eq_of_val_eq (UInt32.toNat.inj hx)
          subst hxc
          rw [if_neg hxy] at hab
          have := ih ys hab hba
          rw [this]

theorem jsLt_trans {a b c : String} (hab : jsLt a b = true) (hbc : jsLt b c = true) :
    jsLt a c = true :=
  jsLtChars_trans a.data b.data c.data hab hbc

theorem jsLt_conn {a b : String} (hab : jsLt a b = false) (hba : jsLt b a = false) : a = b := by
  have h := jsLtChars_conn a.data b.data hab hba
  cases a; cases b
  simpa [String.data] using congrArg String.mk h

/-- `a <= b` and `b <= c` imply `a <= c` for JS string comparison. -/
theorem jsLe_trans {a b c : String} (hab : jsLe a b = true) (hbc : jsLe b c = true) :
    jsLe a c = true := by
  simp only [jsLe, Bool.not_eq_true', Bool.not_eq_false] at hab hbc ⊢
  by_contra hca
  rw [Bool.not_eq_false] at hca
  rcases hb : jsLt b a with _ | _
  · rcases hc : jsLt a b with _ | _
    · have := jsLt_conn hc hb
      subst this
      rw [hca] at hbc
      exact absurd hbc (by simp)
    · have := jsLt_trans hca hc
      rw [this] at hbc
      exact absurd hbc (by simp)
  · rw [hb] at hab
    exact absurd hab (by simp)

theorem jsLe_of_not_jsGt {a b : String} (h : jsGt a b = false) : jsLe a b = true := by
  simp only [jsGt] at h
  simp [jsLe, h]

theorem mem_jsInsert {c : α → α → Int} {a x : α} {l : List α} :
    x ∈ jsInsert c a l ↔ x = a ∨ x ∈ l := by
  induction l with
  | nil => simp [jsInsert]
  | cons y ys ih =>
    simp only [jsInsert]
    split
    · simp [List.mem_cons]
    · simp only [List.mem_cons, ih]
      tauto

theorem mem_jsSort {c : α → α → Int} {x : α} {l : List α} :
    x ∈ jsSort c l ↔ x ∈ l := by
  induction l with
  | nil => simp [jsSort]
  | cons a as ih => simp [jsSort, mem_jsInsert, ih]

theorem filter_jsInsert_pos {c : α → α → Int} {p : α → Bool} {a : α} {l : List α}
    (hpa : p a = true) (h : ∀ y ∈ l, p y = true → c a y ≤ 0) :
    (jsInsert c a l).filter p = a :: l.filter p := by
  induction l with
  | nil => simp [jsInsert, hpa]
  | cons y ys ih =>
    simp only [jsInsert]
    split
    case isTrue hc => simp [List.filter_cons, hpa]
    case isFalse hc =>
      have hpy : p y = false := by
        rcases hy : p y with _ | _
        · rfl
        · exact absurd (h y (by simp) hy) hc
      simp only [List.filter_cons, hpy, Bool.false_eq_true, if_false]
      exact ih fun z hz hpz => h z (by simp [hz]) hpz

theorem filter_jsInsert_neg {c : α → α → Int} {p : α → Bool} {a : α} {l : List α}
    (hpa : p a = false) :
    (jsInsert c a l).filter p = l.filter p := by
  induction l with
  | nil => simp [jsInsert, hpa]
  | cons y ys ih =>
    simp only [jsInsert]
    split
    · simp [List.filter_cons, hpa]
    · rw [List.filter_cons, List.filter_cons]
      cases hy : p y <;> simp [ih]

/-- Stability of the sort model: records the comparator never strictly
orders keep exactly their original relative positions — filtering the
sorted list by such a class gives the same list as filtering the input. -/
theorem jsSort_filter_eq {c : α → α → Int} {p : α → Bool} {l : List α}
    (h : ∀ x y, p x = true → p y = true → c x y ≤ 0) :
    (jsSort c l).filter p = l.filter p := by
  induction l with
  | nil => simp [jsSort]
  | cons a as ih =>
    simp only [jsSort]
    rcases hpa : p a with _ | _
    · rw [filter_jsInsert_neg hpa, ih, List.filter_cons, hpa]
      simp
    · rw [filter_jsInsert_pos hpa (fun y _ hpy => h a y hpa hpy), ih, List.filter_cons, hpa]
      simp

theorem pairwise_jsInsert {c : α → α → Int} {a : α} {l : List α}
    (htot : ∀ x y, c x y ≤ 0 ∨ c y x ≤ 0)
    (htrans : ∀ x y z, c x y ≤ 0 → c y z ≤ 0 → c x z ≤ 0)
    (hl : l.Pairwise (fun x y => c x y ≤ 0)) :
    (jsInsert c a l).Pairwise (fun x y => c x y ≤ 0) := by
  induction l with
  | nil => simp [jsInsert]
  | cons y ys ih =>
    rcases List.pairwise_cons.mp hl with ⟨hy, hys⟩
    simp only [jsInsert]
    split
    case isTrue hc =>
      refine List.pairwise_cons.mpr ⟨?_, hl⟩
      intro z hz
      rcases List.mem_cons.mp hz with hz | hz
      · exact hz ▸ hc
      · exact htrans a y z hc (hy z hz)
    case isFalse hc =>
      have hya : c y a ≤ 0 := (htot a y).resolve_left hc
      refine List.pairwise_cons.mpr ⟨?_, ih hys⟩
      intro z hz
      rcases mem_jsInsert.mp hz with hz | hz
      · exact hz ▸ hya
      · exact hy z hz

/-- The sort model orders its output by the comparator, whenever the
comparator is total and transitive. -/
theorem jsSort_pairwise {c : α → α → Int} {l : List α}
    (htot : ∀ x y, c x y ≤ 0 ∨ c y x ≤ 0)
    (htrans : ∀ x y z, c x y ≤ 0 → c y z ≤ 0 → c x z ≤ 0) :
    (jsSort c l).Pairwise (fun x y => c x y ≤ 0) := by
  induction l with
  | nil => simp [jsSort]
  | cons a as ih => exact pairwise_jsInsert htot htrans ih

theorem jsLtChars_irrefl : ∀ l : List Char, jsLtChars l l = false := by
  intro l
  induction l with
  | nil => rfl
  | cons c cs ih => simp [jsLtChars, ih]

theorem jsLt_irrefl (s : String) : jsLt s s = false := jsLtChars_irrefl s.data

theorem jsLt_asymm {a b : String} (h : jsLt a b = true) : jsLt b a = false := by
  rcases hba : jsLt b a with _ | _
  · rfl
  · have := jsLt_trans h hba
    rw [jsLt_irrefl] at this
    exact absurd this (by simp)

theorem localeCmp_nonpos_iff {a b : String} : localeCmp a b ≤ 0 ↔ jsLt b a = false := by
  unfold localeCmp
  rcases hab : jsLt a b with _ | _
  · rcases hba : jsLt b a with _ | _ <;> simp
  · simp [jsLt_asymm hab]

theorem localeCmp_total (a b : String) : localeCmp a b ≤ 0 ∨ localeCmp b a ≤ 0 := by
  rcases hba : jsLt b a with _ | _
  · exact Or.inl (localeCmp_nonpos_iff.mpr hba)
  · exact Or.inr (localeCmp_nonpos_iff.mpr (jsLt_asymm hba))

theorem localeCmp_trans {a b c : String} (hab : localeCmp a b ≤ 0) (hbc : localeCmp b c ≤ 0) :
    localeCmp a c ≤ 0 := by
  rw [localeCmp_nonpos_iff] at hab hbc ⊢
  have h1 : jsLe a b = true := by simp [jsLe, hab]
  have h2 : jsLe b c = true := by simp [jsLe, hbc]
  have h3 := jsLe_trans h1 h2
  simpa [jsLe] using h3

theorem decodeExpense_encode (e : Expense) : decodeExpense (encodeExpense e) = some e := rfl

theorem decodeExpenseList_encode (l : List Expense) :
    decodeExpenseList (l.map encodeExpense) = some l := by
  induction l with
  | nil => rfl
  | cons e es ih => simp [decodeExpenseList, decodeExpense_encode, ih]

/-- C8: for every store state and export timestamp, importing the
document produced by `exportData` reproduces an equal store: the same
records with the same field values, and the same budget (a zero budget
is falsy and so is skipped by the import, but it then simply keeps its
current — identical — value). -/
theorem import_export_roundtrip (st : StoreD) (ts : String) :
    importData (some (exportData st ts)) st = (st, .imported) := by
  simp [importData, exportData, getField, getField.go, jsonTruthy,
        decodeExpenses, decodeExpenseList_encode]

/-- C9: both components with a `computeView`-style pipeline apply their
stages in the fixed order the spec gives — month filter, then (in the
multi-type component, the only one that has it) type filter, then
case-insensitive substring search, then sort — i.e. the computed view
literally equals the composition of the stage functions in that order.
The import/export component has no type-filter stage; its pipeline is
the same composition with that stage absent. -/
theorem computeView_stage_order :
    (∀ es p, computeViewB es p =
        sortStageB p.sortBy p.sortDir
          (searchStageB p.search (typeStageB p.ftype (monthStageB p.month es)))) ∧
    (∀ es p, computeViewD es p =
        sortStageD p.sortBy p.sortDir (searchStageD p.search (monthStageD p.month es))) :=
  ⟨fun _ _ => rfl, fun _ _ => rfl⟩

/-- C10: `deleteExpense id` removes every record whose id equals the
given id (so a single call also deletes all members of a duplicate-id
family, which `id: Date.now()` makes possible), keeps every record with
a different id, and preserves the surviving records' original relative
order (the result is a sublist of the input). -/
theorem deleteExpense_removes_matching (i : Nat) (es : List Expense) :
    (∀ r ∈ deleteExpense i es, r.id ≠ i) ∧
    (∀ r ∈ es, r.id ≠ i → r ∈ deleteExpense i es) ∧
    List.Sublist (deleteExpense i es) es := by
  refine ⟨?_, ?_, List.filter_sublist es⟩
  · intro r hr
    have h := List.of_mem_filter hr
    simpa using h
  · intro r hr hne
    exact List.mem_filter.mpr ⟨hr, by simpa using hne⟩

/-- Concrete check for C10's theorem: in a collection where ids 1 and 2
occur and id 1 occurs twice, the id-2 record survives `deleteExpense 1`. -/
theorem deleteExpense_removes_matching_check :
    ({ id := 2, title := "Train", amount := 12, date := "2024-01-06",
       category := "Travel" } : Expense) ∈
      deleteExpense 1
        [{ id := 1, title := "Coffee", amount := 3, date := "2024-01-05", category := "Food" },
         { id := 2, title := "Train", amount := 12, date := "2024-01-06", category := "Travel" },
         { id := 1, title := "Book", amount := 9, date := "2024-02-01", category := "Shopping" }] :=
  (deleteExpense_removes_matching 1
      [{ id := 1, title := "Coffee", amount := 3, date := "2024-01-05", category := "Food" },
       { id := 2, title := "Train", amount := 12, date := "2024-01-06", category := "Travel" },
       { id := 1, title := "Book", amount := 9, date := "2024-02-01", category := "Shopping" }]).2.1
    { id := 2, title := "Train", amount := 12, date := "2024-01-06", category := "Travel" }
    (by decide) (by decide)

theorem addExpenseA_cases (d : Draft) (today : String) (now : Nat) (es : List Expense) :
    (addExpenseA d today now es).2 = .added ∨ (addExpenseA d today now es).1 = es := by
  unfold addExpenseA
  split
  · exact Or.inr rfl
  · split
    · exact Or.inr rfl
    · split
      · exact Or.inr rfl
      · split
        · exact Or.inr rfl
        · split
          · dsimp only
            split
            · exact Or.inr rfl
            · exact Or.inl rfl
          · dsimp only
            split
            · exact Or.inr rfl
            · exact Or.inl rfl

/-- C1 (counterexample): the claim quantifies over every `add`
implementation it cites, but the sidebar component's `addExpense`
(`src/unnamed/part_000` lines 62-85) performs no amount or date
validation: a candidate whose amount is the numeral `"-5"`
(`Number` value `-5 ≤ 0`) and whose date lies strictly after the current
date `"2024-05-05"` is accepted and appended, so the collection does NOT
stay unchanged and no `ValidationError` is reported. -/
theorem addExpenseC_accepts_invalid :
    jsNumber "-5" = some (-5) ∧ ((-5 : Int) ≤ 0) ∧
    jsGt "2030-01-01" "2024-05-05" = true ∧
    addExpenseC ⟨"Lunch", "-5", "2030-01-01", "Food", ""⟩ 1 [] =
      ([{ id := 1, title := "Lunch", amount := "-5", date := "2030-01-01",
          category := "Food" }], .added) :=
  ⟨by decide, by decide, by decide, by decide⟩

/-- C1 (amended): in the validating `addExpense` (the first
`App_backup2.js` component, and likewise the other two validating
components), a candidate with `Number(amount)` NaN or `≤ 0`, or a date
strictly after the current date, or an empty title, or an empty resolved
category, always leaves the collection exactly unchanged (no partial
mutation on any failing exit); the amount and date failures are reported
(an `alert`), while the empty-field and unresolved-category failures are
silent bare `return`s.  The sidebar `part_000` component, by contrast,
performs no amount or date validation at all (see the counterexample). -/
theorem addExpenseA_validation (d : Draft) (today : String) (now : Nat) (es : List Expense) :
    ((addExpenseA d today now es).2 ≠ .added → (addExpenseA d today now es).1 = es) ∧
    (∀ n : Int, d.title ≠ "" → d.amount ≠ "" → d.date ≠ "" → d.category ≠ "" →
      jsNumber d.amount = some n → n ≤ 0 →
      (addExpenseA d today now es).1 = es ∧
        reportedA (addExpenseA d today now es).2 = true) ∧
    (d.title ≠ "" → d.amount ≠ "" → d.date ≠ "" → d.category ≠ "" →
      jsNumber d.amount = none →
      (addExpenseA d today now es).1 = es ∧
        reportedA (addExpenseA d today now es).2 = true) ∧
    (∀ n : Int, d.title ≠ "" → d.amount ≠ "" → d.date ≠ "" → d.category ≠ "" →
      jsNumber d.amount = some n → 0 < n → jsGt d.date today = true →
      (addExpenseA d today now es).1 = es ∧
        reportedA (addExpenseA d today now es).2 = true) ∧
    (d.title = "" →
      (addExpenseA d today now es).1 = es ∧
        reportedA (addExpenseA d today now es).2 = false) ∧
    ((if d.category = "Other" then d.customCategory else d.category) = "" →
      (addExpenseA d today now es).1 = es ∧ (addExpenseA d today now es).2 ≠ .added) := by
  refine ⟨fun hne => ((addExpenseA_cases d today now es).resolve_left hne), ?_, ?_, ?_, ?_, ?_⟩
  · intro n ht ha hd hc hn hle
    simp [addExpenseA, ht, ha, hd, hc, hn, hle, reportedA]
  · intro ht ha hd hc hn
    simp [addExpenseA, ht, ha, hd, hc, hn, reportedA]
  · intro n ht ha hd hc hn hpos hfut
    simp [addExpenseA, ht, ha, hd, hc, hn, hfut, reportedA, Int.not_le.mpr hpos]
  · intro ht
    simp [addExpenseA, ht, reportedA]
  · intro hcat
    unfold addExpenseA
    split
    · exact ⟨rfl, by simp⟩
    · split
      · exact ⟨rfl, by simp⟩
      · split
        · exact ⟨rfl, by simp⟩
        · split
          · exact ⟨rfl, by simp⟩
          · simp only [hcat]
            split
            · exact ⟨rfl, by simp⟩
            · simp at *

/-- Concrete check for C1's amended theorem: the validating component
rejects amount `"-5"`, leaves the collection unchanged and reports. -/
theorem addExpenseA_validation_check :
    (addExpenseA ⟨"Lunch", "-5", "2024-01-01", "Food", ""⟩ "2024-01-02" 7 []).1 = [] ∧
      reportedA (addExpenseA ⟨"Lunch", "-5", "2024-01-01", "Food", ""⟩ "2024-01-02" 7 []).2 = true :=
  (addExpenseA_validation ⟨"Lunch", "-5", "2024-01-01", "Food", ""⟩ "2024-01-02" 7 []).2.1
    (-5) (by decide) (by decide) (by decide) (by decide) (by decide) (by decide)

/-- C5 (counterexample): the sidebar component's `saveEdit`
(`src/unnamed/part_000` lines 106-113) performs NO re-validation: an
update patch whose amount is `"-5"` (`Number` value `-5 ≤ 0`) is applied
to the matching record, so the collection does not stay unchanged and no
`ValidationError` is raised. -/
theorem saveEditC_skips_validation :
    jsNumber "-5" = some (-5) ∧ ((-5 : Int) ≤ 0) ∧
    saveEditC 1 ⟨"Lunch", "-5", "2024-01-01", "Food"⟩
        [{ id := 1, title := "Lunch", amount := "5", date := "2024-01-01", category := "Food" }] =
      [{ id := 1, title := "Lunch", amount := "-5", date := "2024-01-01",
         category := "Food" }] :=
  ⟨by decide, by decide, by decide⟩

/-- C5 (amended): the validating `saveEdit` (the first `App_backup2.js`
component, and likewise the other two validating components) re-validates
amount and date and, on a failure, leaves the collection unchanged and
reports (the re-validation happens before the id lookup, so it reports
even when the id is absent); with a valid patch it maps over the
collection replacing exactly the matching record in place (spreading the
patch fields over it); with a valid patch and no matching id it is a
silent no-op — the collection is unchanged and no error is raised.  The
sidebar `part_000` component's `saveEdit` re-validates nothing (see the
counterexample). -/
theorem saveEditA_behaviour (i : Nat) (f : EditForm) (today : String) (es : List Expense) :
    (∀ n : Int, jsNumber f.amount = some n → n ≤ 0 →
      saveEditA i f today es = (es, .badAmount)) ∧
    (jsNumber f.amount = none → saveEditA i f today es = (es, .badAmount)) ∧
    (∀ n : Int, jsNumber f.amount = some n → 0 < n → jsGt f.date today = true →
      saveEditA i f today es = (es, .futureDate)) ∧
    (∀ n : Int, jsNumber f.amount = some n → 0 < n → jsGt f.date today = false →
      saveEditA i f today es =
        (es.map (fun e =>
          if e.id = i then
            { e with title := f.title, amount := n, date := f.date,
                     category := f.category }
          else e), .saved)) ∧
    (∀ n : Int, jsNumber f.amount = some n → 0 < n → jsGt f.date today = false →
      (∀ e ∈ es, e.id ≠ i) →
      saveEditA i f today es = (es, .saved)) := by
  refine ⟨?_, ?_, ?_, ?_, ?_⟩
  · intro n hn hle
    simp [saveEditA, hn, hle]
  · intro hn
    simp [saveEditA, hn]
  · intro n hn hpos hfut
    simp [saveEditA, hn, hfut, Int.not_le.mpr hpos]
  · intro n hn hpos hfut
    simp [saveEditA, hn, hfut, Int.not_le.mpr hpos]
  · intro n hn hpos hfut hno
    have hmap : es.map (fun e =>
        if e.id = i then
          ({ e with title := f.title, amount := n, date := f.date,
                    category := f.category } : Expense)
        else e) = es := by
      have := List.map_congr_left (l := es)
        (f := fun e =>
          if e.id = i then
            ({ e with title := f.title, amount := n, date := f.date,
                      category := f.category } : Expense)
          else e)
        (g := id) (fun e he => if_neg (hno e he))
      simpa using this
    simp [saveEditA, hn, hfut, Int.not_le.mpr hpos, hmap]

/-- Concrete check for C5's amended theorem: a valid patch aimed at an
id that is absent leaves the collection unchanged with the non-error
`saved` outcome. -/
theorem saveEditA_behaviour_check :
    saveEditA 42 ⟨"Tea", "4", "2024-01-01", "Food"⟩ "2024-01-02"
        [{ id := 1, title := "Coffee", amount := 3, date := "2024-01-05", category := "Food" }] =
      ([{ id := 1, title := "Coffee", amount := 3, date := "2024-01-05", category := "Food" }],
        .saved) :=
  (saveEditA_behaviour 42 ⟨"Tea", "4", "2024-01-01", "Food"⟩ "2024-01-02"
      [{ id := 1, title := "Coffee", amount := 3, date := "2024-01-05", category := "Food" }]).2.2.2.2
    4 (by decide) (by decide) (by decide)
    (by intro e he; fin_cases he; decide)

/-- C4 (counterexample): the import/export component's `addExpense`
(`src/unnamed/part_000` lines 616-626) PREPENDS the new record
(`setExpenses(prev => [newExpense, ...prev])`).  With a fully valid
candidate (`Number("4") = 4 > 0`, date not in the future) added to a
one-record collection, the result has the new record at the head, not
appended at the end as the claim states. -/
theorem addExpenseD_prepends :
    jsNumber "4" = some 4 ∧ ((0 : Int) < 4) ∧
    jsGt "2024-02-02" "2024-02-03" = false ∧
    (addExpenseD ⟨"Tea", "4", "2024-02-02", "Food", ""⟩ "2024-02-03" 9
        [{ id := 1, title := "Coffee", amount := 3, date := "2024-01-05", category := "Food" }]).1 =
      [{ id := 9, title := "Tea", amount := 4, date := "2024-02-02", category := "Food" },
       { id := 1, title := "Coffee", amount := 3, date := "2024-01-05", category := "Food" }] ∧
    [({ id := 9, title := "Tea", amount := 4, date := "2024-02-02", category := "Food" } : Expense),
     { id := 1, title := "Coffee", amount := 3, date := "2024-01-05", category := "Food" }] ≠
      [{ id := 1, title := "Coffee", amount := 3, date := "2024-01-05", category := "Food" }] ++
        [{ id := 9, title := "Tea", amount := 4, date := "2024-02-02", category := "Food" }] :=
  ⟨by decide, by decide, by decide, by decide, by decide⟩

/-- C4 (amended): for every collection and fully valid candidate, `add`
grows the collection by exactly one record whose amount is the positive
`Number` value, whose date is not after the current date, and whose
title and category are non-empty; the new record carries `id =
Date.now()`.  The first `App_backup2.js` component appends it at the
END, while the import/export component PREPENDS it at the head; and the
timestamp id is unique within the collection only on condition that no
existing record already carries it (the source never checks this). -/
theorem addExpense_valid_behaviour :
    (∀ (d : Draft) (today : String) (now : Nat) (es : List Expense) (n : Int),
      d.title ≠ "" → d.amount ≠ "" → d.date ≠ "" → d.category ≠ "" →
      jsNumber d.amount = some n → 0 < n → jsGt d.date today = false →
      (if d.category = "Other" then d.customCategory else d.category) ≠ "" →
      (addExpenseA d today now es).1 =
        es ++ [{ id := now, title := d.title, amount := n, date := d.date,
                 category := if d.category = "Other" then d.customCategory else d.category }] ∧
      ((addExpenseA d today now es).1).length = es.length + 1 ∧
      (addExpenseA d today now es).2 = .added ∧
      jsLe d.date today = true ∧
      (now ∉ es.map (fun e => e.id) → (es.map (fun e => e.id)).Nodup →
        (((addExpenseA d today now es).1).map (fun e => e.id)).Nodup)) ∧
    (∀ (d : DraftD) (today : String) (now : Nat) (es : List Expense) (n : Int),
      d.title ≠ "" → d.amount ≠ "" → d.date ≠ "" → d.category ≠ "" →
      jsNumber d.amount = some n → 0 < n → jsGt d.date today = false →
      (addExpenseD d today now es).1 =
        { id := now, title := d.title, amount := n, date := d.date,
          category := d.category, notes := d.notes } :: es ∧
      ((addExpenseD d today now es).1).length = es.length + 1 ∧
      (addExpenseD d today now es).2 = .added) := by
  constructor
  · intro d today now es n ht ha hd hc hn hpos hfut hcat
    have heq : (addExpenseA d today now es) =
        (es ++ [{ id := now, title := d.title, amount := n, date := d.date,
                  category := if d.category = "Other" then d.customCategory
                              else d.category }], .added) := by
      simp [addExpenseA, ht, ha, hd, hc, hn, hfut, Int.not_le.mpr hpos, hcat]
    refine ⟨by rw [heq], by rw [heq]; simp, by rw [heq], jsLe_of_not_jsGt hfut, ?_⟩
    intro hfresh hnd
    rw [heq]
    simp only [List.map_append, List.map_cons, List.map_nil]
    rw [List.nodup_append]
    exact ⟨hnd, List.nodup_singleton now, by simpa using hfresh⟩
  · intro d today now es n ht ha hd hc hn hpos hfut
    have heq : (addExpenseD d today now es) =
        ({ id := now, title := d.title, amount := n, date := d.date,
           category := d.category, notes := d.notes } :: es, .added) := by
      simp [addExpenseD, ht, ha, hd, hc, hn, hfut, Int.not_le.mpr hpos]
    exact ⟨by rw [heq], by rw [heq]; simp, by rw [heq]⟩

/-- Concrete check for C4's amended theorem: a valid add in the first
`App_backup2.js` component appends at the end with all obligations
discharged at a concrete input. -/
theorem addExpense_valid_behaviour_check :
    (addExpenseA ⟨"Tea", "4", "2024-02-02", "Food", ""⟩ "2024-02-03" 9
        [{ id := 1, title := "Coffee", amount := 3, date := "2024-01-05", category := "Food" }]).1 =
      [{ id := 1, title := "Coffee", amount := 3, date := "2024-01-05", category := "Food" }] ++
        [{ id := 9, title := "Tea", amount := 4, date := "2024-02-02", category := "Food" }] :=
  (addExpense_valid_behaviour.1 ⟨"Tea", "4", "2024-02-02", "Food", ""⟩ "2024-02-03" 9
      [{ id := 1, title := "Coffee", amount := 3, date := "2024-01-05", category := "Food" }]
      4 (by decide) (by decide) (by decide) (by decide) (by decide) (by decide) (by decide)
      (by decide)).1

/-- C6 (counterexample): a well-formed JSON document that merely LACKS an
`expenses` property (here `{"foo": 1}`) makes `importData` do nothing at
all — the collection and budget stay unchanged, as the claim says, but
NO error is reported to the user (`if (data.expenses)` simply falls
through; only the `JSON.parse` failure branch notifies). -/
theorem importData_silent_without_expenses :
    importData (some (.obj [("foo", .num 1)]))
        ⟨[{ id := 1, title := "Coffee", amount := 3, date := "2024-01-05", category := "Food" }],
          10000⟩ =
      (⟨[{ id := 1, title := "Coffee", amount := 3, date := "2024-01-05", category := "Food" }],
          10000⟩, .silentNoop) ∧
    impReportsError .silentNoop = false :=
  ⟨rfl, rfl⟩

/-- C6 (amended): an import whose file is not valid JSON reports a
non-fatal error (`"Invalid file format"`) and leaves the in-memory
collection and stored budget exactly unchanged; an import whose file
parses but lacks an `expenses` property — or whose `expenses` property
is falsy — also leaves everything unchanged, but silently: no error is
reported.  (The source checks only truthiness, not array-ness, of
`expenses`.) -/
theorem importData_error_handling :
    (∀ st : StoreD, importData none st = (st, .parseError) ∧
      impReportsError .parseError = true) ∧
    (∀ (j : Json) (st : StoreD), getField j "expenses" = none →
      importData (some j) st = (st, .silentNoop)) ∧
    (∀ (j : Json) (v : Json) (st : StoreD), getField j "expenses" = some v →
      jsonTruthy v = false → importData (some j) st = (st, .silentNoop)) ∧
    impReportsError .silentNoop = false := by
  refine ⟨fun st => ⟨rfl, rfl⟩, ?_, ?_, rfl⟩
  · intro j st hget
    simp [importData, hget]
  · intro j v st hget htruthy
    simp [importData, hget, htruthy]

/-- Concrete check for C6's amended theorem: a parse failure reports and
changes nothing; a parsed document with a falsy `expenses` value changes
nothing silently. -/
theorem importData_error_handling_check :
    importData (some (.obj [("expenses", .str "")])) ⟨[], 500⟩ = (⟨[], 500⟩, .silentNoop) :=
  (importData_error_handling.2.2.1 (.obj [("expenses", .str "")]) (.str "") ⟨[], 500⟩
    rfl rfl)

theorem invariantA_mono {today today' : String} {es : List Expense}
    (h : InvariantA today es) (hle : jsLe today today' = true) : InvariantA today' es := by
  refine ⟨h.1, fun r hr => ?_⟩
  obtain ⟨ha, hd, ht, hc⟩ := h.2 r hr
  exact ⟨ha, jsLe_trans hd hle, ht, hc⟩

theorem addExpenseA_added_shape (d : Draft) (today : String) (now : Nat) (es : List Expense)
    (h : (addExpenseA d today now es).2 = .added) :
    ∃ n : Int, jsNumber d.amount = some n ∧ 0 < n ∧ jsGt d.date today = false ∧
      d.title ≠ "" ∧
      (if d.category = "Other" then d.customCategory else d.category) ≠ "" ∧
      (addExpenseA d today now es).1 =
        es ++ [{ id := now, title := d.title, amount := n, date := d.date,
                 category := if d.category = "Other" then d.customCategory
                             else d.category }] := by
  by_cases ht : d.title = ""
  · simp [addExpenseA, ht] at h
  by_cases ha : d.amount = ""
  · simp [addExpenseA, ha] at h
  by_cases hd : d.date = ""
  · simp [addExpenseA, hd] at h
  by_cases hc : d.category = ""
  · simp [addExpenseA, hc] at h
  rcases hn : jsNumber d.amount with _ | n
  · simp [addExpenseA, ht, ha, hd, hc, hn] at h
  by_cases hpos : n ≤ 0
  · simp [addExpenseA, ht, ha, hd, hc, hn, hpos] at h
  by_cases hfut : jsGt d.date today = true
  · simp [addExpenseA, ht, ha, hd, hc, hn, hpos, hfut] at h
  by_cases hcat : (if d.category = "Other" then d.customCategory else d.category) = ""
  · simp [addExpenseA, ht, ha, hd, hc, hn, hpos, hfut, hcat] at h
  · refine ⟨n, rfl, by omega, by simpa using hfut, ht, hcat, ?_⟩
    simp [addExpenseA, ht, ha, hd, hc, hn, hpos, hfut, hcat]

/-- C2 (counterexample): a state reachable from the empty collection by
the claim's own operations — one valid `add` followed by one `update`
that passes the amount/date re-validation but carries an empty title and
category — violates the data-model invariants: `saveEdit` never
re-validates title or category, so the resulting record has an empty
title (and category). -/
theorem update_reaches_invariant_violation :
    (saveEditA 1 ⟨"", "5", "2024-01-01", ""⟩ "2024-01-02"
        (addExpenseA ⟨"Lunch", "5", "2024-01-01", "Food", ""⟩ "2024-01-02" 1 []).1).1 =
      [{ id := 1, title := "", amount := 5, date := "2024-01-01", category := "" }] ∧
    ¬ InvariantA "2024-01-02"
        (saveEditA 1 ⟨"", "5", "2024-01-01", ""⟩ "2024-01-02"
          (addExpenseA ⟨"Lunch", "5", "2024-01-01", "Food", ""⟩ "2024-01-02" 1 []).1).1 := by
  refine ⟨by decide, ?_⟩
  rintro ⟨-, hall⟩
  have h := hall { id := 1, title := "", amount := 5, date := "2024-01-01", category := "" }
    (by decide)
  exact h.2.2.1 rfl

/-- C2 (amended): every state reachable from the empty collection by
validated `add`, `remove` and `clear` — with the current date
non-decreasing across steps and every freshly generated timestamp id
distinct from the ids already present — satisfies the data-model
invariants: amount > 0, date not after the current date, non-empty title
and category, ids unique.  `update` and `import` are NOT
invariant-preserving and are excluded: `update` re-validates only amount
and date and can blank the title/category (see the counterexample), and
`import` installs arbitrary file contents unchecked. -/
theorem reachable_states_invariant {today : String} {es : List Expense}
    (h : ReachA today es) : InvariantA today es := by
  induction h with
  | init today => exact ⟨List.nodup_nil, by simp⟩
  | stepAdd today' d now hre hle hfresh ih =>
    rcases hout : (addExpenseA d today' now _).2 with _ | _ | _ | _ | _
    case added =>
      obtain ⟨n, hn, hpos, hfut, ht, hcat, heq⟩ := addExpenseA_added_shape _ _ _ _ hout
      rw [heq]
      have ihm := invariantA_mono ih hle
      constructor
      · simp only [List.map_append, List.map_cons, List.map_nil]
        rw [List.nodup_append]
        exact ⟨ihm.1, List.nodup_singleton now, by simpa using hfresh⟩
      · intro r hr
        rcases List.mem_append.mp hr with hr | hr
        · exact ihm.2 r hr
        · rcases List.mem_singleton.mp hr with rfl
          exact ⟨hpos, jsLe_of_not_jsGt hfut, ht, hcat⟩
    all_goals
      have hunch : (addExpenseA d today' now _).1 = _ :=
        (addExpenseA_cases d today' now _).resolve_left (by rw [hout]; simp)
      rw [hunch]
      exact invariantA_mono ih hle
  | stepDelete today' i hre hle ih =>
    have ihm := invariantA_mono ih hle
    refine ⟨?_, fun r hr => ihm.2 r (List.mem_of_mem_filter hr)⟩
    exact ihm.1.sublist (List.Sublist.map _ (List.filter_sublist _))
  | stepClear today' hre hle ih =>
    exact ⟨List.nodup_nil, by simp [clearAll]⟩

/-- Concrete check for C2's amended theorem: the state reached by one
valid add at a later current date satisfies the invariants. -/
theorem reachable_states_invariant_check :
    InvariantA "2024-01-02"
      (addExpenseA ⟨"Lunch", "5", "2024-01-01", "Food", ""⟩ "2024-01-02" 1 []).1 :=
  reachable_states_invariant
    (ReachA.stepAdd "2024-01-02" ⟨"Lunch", "5", "2024-01-01", "Food", ""⟩ 1
      (ReachA.init "2024-01-01") (by decide) (by simp))

theorem bumpCell_month (e : Expense) (c : MonthCell) : (bumpCell e c).month = c.month := by
  unfold bumpCell
  split
  · rfl
  · split <;> rfl

theorem bumpCell_eq (e : Expense) (c : MonthCell) :
    bumpCell e c = { month := c.month, expense := c.expense + expPart e,
                     income := c.income + incPart e,
                     investment := c.investment + invPart e } := by
  unfold bumpCell expPart incPart invPart
  split
  · simp_all
  · split <;> simp_all

theorem findCell_month {k : String} {acc : List MonthCell} {c : MonthCell}
    (h : findCell k acc = some c) : c.month = k := by
  induction acc with
  | nil => simp [findCell] at h
  | cons c0 cs ih =>
    unfold findCell at h
    split at h
    case isTrue h0 => cases h; exact h0
    case isFalse h0 => exact ih h

theorem findCell_upsertCell_self (m : String) (e : Expense) (acc : List MonthCell) :
    findCell m (upsertCell m e acc) =
      some (bumpCell e ((findCell m acc).getD
        { month := m, expense := 0, income := 0, investment := 0 })) := by
  induction acc with
  | nil => simp [upsertCell, findCell, bumpCell_month]
  | cons c cs ih =>
    unfold upsertCell
    split
    case isTrue h0 =>
      simp [findCell, bumpCell_month, h0]
    case isFalse h0 =>
      unfold findCell
      rw [if_neg h0, if_neg h0, ih]

theorem findCell_upsertCell_other {k m : String} (hne : k ≠ m) (e : Expense)
    (acc : List MonthCell) :
    findCell k (upsertCell m e acc) = findCell k acc := by
  have hmk : ¬ m = k := fun h => hne h.symm
  induction acc with
  | nil => simp [upsertCell, findCell, bumpCell_month, hmk]
  | cons c cs ih =>
    unfold upsertCell
    split
    case isTrue h0 =>
      have hck : ¬ c.month = k := fun h => hmk (h0 ▸ h)
      unfold findCell
      rw [bumpCell_month, if_neg hck, if_neg hck]
    case isFalse h0 =>
      unfold findCell
      split
      · rfl
      · exact ih

theorem foldBucket_eq (ms : List Expense) (c : MonthCell) :
    foldBucket c ms =
      { month := c.month, expense := c.expense + (ms.map expPart).sum,
        income := c.income + (ms.map incPart).sum,
        investment := c.investment + (ms.map invPart).sum } := by
  induction ms generalizing c with
  | nil => simp [foldBucket]
  | cons e rest ih =>
    show foldBucket (bumpCell e c) rest = _
    rw [ih, bumpCell_eq]
    simp [add_assoc]

theorem monthMapB_go (view : List Expense) (acc : List MonthCell) (k : String) (hk : k ≠ "") :
    findCell k (view.foldl (fun acc e =>
        let m := jsTake 7 e.date
        if m = "" then acc else upsertCell m e acc) acc) =
      (match findCell k acc with
       | some c => some (foldBucket c (view.filter (fun e => jsTake 7 e.date == k)))
       | none =>
         if (view.filter (fun e => jsTake 7 e.date == k)).isEmpty then none
         else some (foldBucket { month := k, expense := 0, income := 0, investment := 0 }
           (view.filter (fun e => jsTake 7 e.date == k)))) := by
  induction view generalizing acc with
  | nil =>
    rcases h : findCell k acc with _ | c
    · simp [h]
    · simp [h, foldBucket]
  | cons e rest ih =>
    rw [List.foldl_cons]
    by_cases hm : jsTake 7 e.date = ""
    · have hne : ¬ (jsTake 7 e.date == k) = true := by
        rw [hm]
        simp [Ne.symm hk]
      rw [List.filter_cons_of_neg (p := fun e => jsTake 7 e.date == k) (a := e) hne]
      show findCell k (List.foldl _ (if jsTake 7 e.date = "" then acc
        else upsertCell (jsTake 7 e.date) e acc) rest) = _
      rw [if_pos hm]
      exact ih acc
    · show findCell k (List.foldl _ (if jsTake 7 e.date = "" then acc
        else upsertCell (jsTake 7 e.date) e acc) rest) = _
      rw [if_neg hm]
      by_cases hek : jsTake 7 e.date = k
      · have hbeq : (jsTake 7 e.date == k) = true := by simp [hek]
        rw [List.filter_cons_of_pos (p := fun e => jsTake 7 e.date == k) (a := e) hbeq, hek]
        rw [ih (upsertCell k e acc), findCell_upsertCell_self]
        rcases h : findCell k acc with _ | c
        · simp [h, List.isEmpty, foldBucket]
        · simp [h, foldBucket]
      · have hbeq : ¬ (jsTake 7 e.date == k) = true := by simp [hek]
        rw [List.filter_cons_of_neg (p := fun e => jsTake 7 e.date == k) (a := e) hbeq]
        rw [ih (upsertCell (jsTake 7 e.date) e acc),
            findCell_upsertCell_other (fun h => hek h.symm)]

theorem lookupKey_bumpKey_self (k : String) (v : Int) (acc : List (String × Int)) :
    lookupKey k (bumpKey k v acc) = some ((lookupKey k acc).getD 0 + v) := by
  induction acc with
  | nil => simp [bumpKey, lookupKey]
  | cons p ps ih =>
    rcases p with ⟨k', x⟩
    unfold bumpKey
    split
    case isTrue h0 =>
      simp [lookupKey, h0]
    case isFalse h0 =>
      unfold lookupKey
      rw [if_neg h0, if_neg h0, ih]

theorem lookupKey_bumpKey_other {k m : String} (hne : k ≠ m) (v : Int)
    (acc : List (String × Int)) :
    lookupKey k (bumpKey m v acc) = lookupKey k acc := by
  have hmk : ¬ m = k := fun h => hne h.symm
  induction acc with
  | nil => simp [bumpKey, lookupKey, hmk]
  | cons p ps ih =>
    rcases p with ⟨k', x⟩
    unfold bumpKey
    split
    case isTrue h0 =>
      have hck : ¬ k' = k := fun h => hmk (h0 ▸ h)
      unfold lookupKey
      rw [if_neg hck, if_neg hck]
    case isFalse h0 =>
      unfold lookupKey
      split
      · rfl
      · exact ih

theorem monthlyDataD_go (view : List Expense) (acc : List (String × Int)) (k : String) :
    lookupKey k (view.foldl (fun acc e => bumpKey (jsTake 7 e.date) e.amount acc) acc) =
      (match lookupKey k acc with
       | some x => some (x + ((view.filter (fun e => jsTake 7 e.date == k)).map
           (fun e => e.amount)).sum)
       | none =>
         if (view.filter (fun e => jsTake 7 e.date == k)).isEmpty then none
         else some (((view.filter (fun e => jsTake 7 e.date == k)).map
           (fun e => e.amount)).sum)) := by
  induction view generalizing acc with
  | nil =>
    rcases h : lookupKey k acc with _ | x
    · simp [h]
    · simp [h]
  | cons e rest ih =>
    rw [List.foldl_cons]
    by_cases hek : jsTake 7 e.date = k
    · have hbeq : (jsTake 7 e.date == k) = true := by simp [hek]
      rw [List.filter_cons_of_pos (p := fun e => jsTake 7 e.date == k) (a := e) hbeq, hek]
      rw [ih (bumpKey k e.amount acc), lookupKey_bumpKey_self]
      rcases h : lookupKey k acc with _ | x
      · simp [h, List.isEmpty, add_assoc]
      · simp [h, add_assoc]
    · have hbeq : ¬ (jsTake 7 e.date == k) = true := by simp [hek]
      rw [List.filter_cons_of_neg (p := fun e => jsTake 7 e.date == k) (a := e) hbeq]
      rw [ih (bumpKey (jsTake 7 e.date) e.amount acc),
          lookupKey_bumpKey_other (fun h => hek h.symm)]

/-- C7 (counterexample): the claim says records with a missing or
MALFORMED date are excluded from the month-bucketed aggregates, but the
multi-type component only guards against a falsy `slice(0, 7)`: a record
with the malformed non-empty date `"oops"` lands in a `"oops"` bucket of
`monthMap`.  And the import/export component has no guard at all: a
record with an empty (missing) date lands in the `""` bucket of its
monthly aggregation. -/
theorem malformed_date_is_bucketed :
    findCell "oops" (monthMapB
        [{ id := 1, title := "Gift", amount := 7, date := "oops", category := "Misc" }]) =
      some { month := "oops", expense := 7, income := 0, investment := 0 } ∧
    lookupKey "" (monthlyDataD
        [{ id := 2, title := "NoDate", amount := 4, date := "", category := "Misc" }]) =
      some 4 :=
  ⟨by decide, by decide⟩

/-- C7 (amended): in the multi-type component, `monthMap` maps every
non-empty 7-character date prefix `k` that occurs in the view to the sums
of the matching records' amounts split by type (and no other `k`), and
records with a falsy (missing/empty) date key are excluded — but a
malformed NON-empty date is bucketed under its own garbage key, not
excluded; `barData`'s entries are sorted ascending by month key; records
excluded from the buckets still appear in the raw view.  In the
import/export component no exclusion happens at all: every record of the
view is bucketed, records with an empty date under the key `""`. -/
theorem byMonth_aggregation :
    (∀ (view : List Expense) (k : String), k ≠ "" →
      findCell k (monthMapB view) =
        (if (view.filter (fun e => jsTake 7 e.date == k)).isEmpty then none
         else some
           { month := k,
             expense := ((view.filter (fun e => jsTake 7 e.date == k)).map expPart).sum,
             income := ((view.filter (fun e => jsTake 7 e.date == k)).map incPart).sum,
             investment :=
               ((view.filter (fun e => jsTake 7 e.date == k)).map invPart).sum })) ∧
    (∀ view : List Expense, findCell "" (monthMapB view) = none) ∧
    (∀ view : List Expense,
      ((barDataB view).map (fun b => b.month)).Pairwise (fun a b => jsLe a b = true)) ∧
    (∀ (view : List Expense) (k : String),
      lookupKey k (monthlyDataD view) =
        (if (view.filter (fun e => jsTake 7 e.date == k)).isEmpty then none
         else some (((view.filter (fun e => jsTake 7 e.date == k)).map
           (fun e => e.amount)).sum))) ∧
    (∀ (es : List Expense) (p : ParamsB) (r : Expense), r ∈ es → p.month = "" →
      p.ftype = "all" → jsTrim p.search = "" → r ∈ computeViewB es p) := by
  refine ⟨?_, ?_, ?_, ?_, ?_⟩
  · intro view k hk
    have h := monthMapB_go view [] k hk
    unfold monthMapB
    rw [h]
    simp only [findCell]
    split
    · rfl
    · rw [foldBucket_eq]
      simp
  · intro view
    unfold monthMapB
    have : ∀ acc : List MonthCell, findCell "" acc = none →
        findCell "" (view.foldl (fun acc e =>
          let m := jsTake 7 e.date
          if m = "" then acc else upsertCell m e acc) acc) = none := by
      induction view with
      | nil => intro acc h; exact h
      | cons e rest ih =>
        intro acc h
        rw [List.foldl_cons]
        apply ih
        by_cases hm : jsTake 7 e.date = ""
        · simpa [hm] using h
        · show findCell "" (if jsTake 7 e.date = "" then acc
            else upsertCell (jsTake 7 e.date) e acc) = none
          rw [if_neg hm, findCell_upsertCell_other (fun hcon => hm hcon.symm)]
          exact h
    exact this [] rfl
  · intro view
    unfold barDataB
    rw [List.map_map]
    have hmonth : ∀ c : MonthCell,
        ((fun b : BarItem => b.month) ∘ (fun c : MonthCell =>
          ({ month := c.month, expense := c.expense, income := c.income,
             investment := c.investment, spending := c.expense + c.investment,
             total := c.income + c.expense + c.investment } : BarItem))) c = c.month :=
      fun c => rfl
    have hp := jsSort_pairwise
      (c := fun a b : MonthCell => localeCmp a.month b.month)
      (l := monthMapB view)
      (fun x y => localeCmp_total x.month y.month)
      (fun x y z hxy hyz => localeCmp_trans hxy hyz)
    rw [List.pairwise_map]
    refine hp.imp ?_
    intro a b hab
    have := localeCmp_nonpos_iff.mp hab
    simp [jsLe, this]
  · intro view k
    have h := monthlyDataD_go view [] k
    unfold monthlyDataD
    rw [h]
    simp [lookupKey]
  · intro es p r hr hm hf hs
    simp only [computeViewB, hm, hf, hs, ne_eq, not_true_eq_false, if_false]
    split
    · exact mem_jsSort.mpr hr
    · exact hr

/-- Concrete check for C7's amended theorem: the bucket of `"2024-01"`
holds the typed sums of the two matching records. -/
theorem byMonth_aggregation_check :
    findCell "2024-01" (monthMapB
        [{ id := 1, title := "Coffee", amount := 3, date := "2024-01-05", category := "Food" },
         { id := 2, title := "Salary", amount := 100, date := "2024-01-10",
           category := "Job", type := "income" }]) =
      some { month := "2024-01", expense := 3, income := 100, investment := 0 } :=
  (byMonth_aggregation.1
      [{ id := 1, title := "Coffee", amount := 3, date := "2024-01-05", category := "Food" },
       { id := 2, title := "Salary", amount := 100, date := "2024-01-10",
         category := "Job", type := "income" }]
      "2024-01" (by decide)).trans (by decide)

/-- C3 (code bug): the spec requires the sort to be stable, with ties
broken by original insertion order, and ECMAScript guarantees a stable
result only for a CONSISTENT comparator.  The `App_backup2.js`
comparator is consistent — on two records whose chosen sort key is equal
it returns `0` (both argument orders), so every conforming engine keeps
their input order.  But the sidebar `part_000` comparator (lines
141-153) is a slipped rewrite that NEVER returns `0`: evaluated at the
failing input — two records tied on `Number(amount) = 5`, sorted by
amount ascending — it returns `-1` for BOTH argument orders, an
inconsistent comparison function, so ECMAScript leaves the order of the
tied pair implementation-defined (and V8's TimSort in fact reverses it).
The last conjunct shows the defect is structural: that comparator can
only ever return `1` or `-1`. -/
theorem cmpC_never_reports_ties :
    jsNumber "5" = some 5 ∧
    cmpC "amount" "asc"
        { id := 1, title := "Tea", amount := "5", date := "2024-01-01", category := "Food" }
        { id := 2, title := "Bun", amount := "5", date := "2024-01-02", category := "Food" }
      = -1 ∧
    cmpC "amount" "asc"
        { id := 2, title := "Bun", amount := "5", date := "2024-01-02", category := "Food" }
        { id := 1, title := "Tea", amount := "5", date := "2024-01-01", category := "Food" }
      = -1 ∧
    cmpAB "amount" "asc"
        { id := 1, title := "Tea", amount := 5, date := "2024-01-01", category := "Food" }
        { id := 2, title := "Bun", amount := 5, date := "2024-01-02", category := "Food" }
      = 0 ∧
    cmpAB "amount" "asc"
        { id := 2, title := "Bun", amount := 5, date := "2024-01-02", category := "Food" }
        { id := 1, title := "Tea", amount := 5, date := "2024-01-01", category := "Food" }
      = 0 ∧
    (∀ (sortBy sortDir : String) (a b : RecC),
      cmpC sortBy sortDir a b = 1 ∨ cmpC sortBy sortDir a b = -1) := by
  refine ⟨by decide, by decide, by decide, by decide, by decide, ?_⟩
  intro sortBy sortDir a b
  unfold cmpC
  split_ifs <;> simp
